import Mathlib

/-!
Shallow embedding of the `PersonalFinanceLedger` class of
`src/finance_ledger.py` (the in-memory ledger component), together with
theorems settling the specification claims about it.

Modelling conventions:
* A Python transaction dictionary (keys `id`, `type`, `amount`,
  `description`, `category`, any of which may be absent when the ledger is
  constructed from `initial_transactions`) is a `Transaction` record of
  `Option`-valued fields.
* Python `float` amounts are modelled as exact rationals `ℚ`; Python's
  `round(x, 2)` is modelled as round-half-to-even at two decimal places
  (`round2`), the convention of Python's `round` on exact values.
* Each method of the class becomes a state-passing function
  `PersonalFinanceLedger → ... → result × PersonalFinanceLedger`, where the
  second component is the state of the object after the call.  A `ValueError`
  raised by `add_transaction` becomes an `Except.error` carrying the message,
  with the state returned unchanged.
-/

/-- One transaction dictionary.  Every field is optional because
`PersonalFinanceLedger.__init__` accepts arbitrary dictionaries through
`initial_transactions`; transactions built by `add_transaction` have every
field present. -/
structure Transaction where
  id : Option ℤ
  type : Option String
  amount : Option ℚ
  description : Option String
  category : Option String
deriving DecidableEq

/-- The `TransactionType` literal type of the source:
`Literal["Income", "Expense"]`. -/
inductive TransactionType where
  | income
  | expense
deriving DecidableEq

/-- The string value a `TransactionType` literal stands for. -/
def TransactionType.str : TransactionType → String
  | .income => "Income"
  | .expense => "Expense"

/-- The mutable state of a `PersonalFinanceLedger` object: the field
`self.transactions` and the field `self.transaction_id_counter`. -/
structure PersonalFinanceLedger where
  transactions : List Transaction
  transaction_id_counter : ℤ
deriving DecidableEq

/-- `PersonalFinanceLedger.__init__`: stores `initial_transactions` when given
(`[]` otherwise) and sets the id counter to 1. -/
def mk_ledger (initial_transactions : Option (List Transaction)) :
    PersonalFinanceLedger :=
  { transactions := initial_transactions.getD []
    transaction_id_counter := 1 }

/-- `PersonalFinanceLedger._get_next_id`: returns the current counter value and
increments the counter. -/
def get_next_id (s : PersonalFinanceLedger) : ℤ × PersonalFinanceLedger :=
  (s.transaction_id_counter,
   { s with transaction_id_counter := s.transaction_id_counter + 1 })

/-- `PersonalFinanceLedger.add_transaction`: raises
`ValueError("Amount must be a positive number.")` when `amount <= 0`;
otherwise builds the transaction dictionary with the next id and the given
fields, appends it to `self.transactions` and returns it. -/
def add_transaction (s : PersonalFinanceLedger) (type : TransactionType)
    (amount : ℚ) (description category : String) :
    Except String Transaction × PersonalFinanceLedger :=
  if amount ≤ 0 then
    (Except.error "Amount must be a positive number.", s)
  else
    let p := get_next_id s
    let tx : Transaction :=
      { id := some p.1
        type := some type.str
        amount := some amount
        description := some description
        category := some category }
    (Except.ok tx, { p.2 with transactions := p.2.transactions ++ [tx] })

/-- The dictionary returned by `PersonalFinanceLedger.get_summary`. -/
structure Summary where
  total_income : ℚ
  total_expense : ℚ
  net_balance : ℚ
deriving DecidableEq

/-- Round half to even to the nearest integer: the convention of Python's
built-in `round` (on exactly representable values). -/
def roundHalfEven (q : ℚ) : ℤ :=
  if q - ⌊q⌋ = 1 / 2 then (if 2 ∣ ⌊q⌋ then ⌊q⌋ else ⌊q⌋ + 1)
  else round q

/-- Python's `round(x, 2)`: round half to even at two decimal places. -/
def round2 (q : ℚ) : ℚ := (roundHalfEven (q * 100) : ℚ) / 100

/-- The body of the `for tx in self.transactions` loop of `get_summary`:
updates the pair `(total_income, total_expense)` by one transaction, using
`tx.get("type", "Expense")` and `tx.get("amount", 0.0)`. -/
def sumStep (acc : ℚ × ℚ) (tx : Transaction) : ℚ × ℚ :=
  let tx_type := tx.type.getD "Expense"
  let tx_amount := tx.amount.getD 0
  if tx_type = "Income" then (acc.1 + tx_amount, acc.2)
  else if tx_type = "Expense" then (acc.1, acc.2 + tx_amount)
  else acc

/-- `PersonalFinanceLedger.get_summary`: folds the loop body over the stored
transactions starting from `(0.0, 0.0)`, sets
`net_balance = total_income - total_expense`, and returns the three values
rounded to two decimal places.  The method writes no field of `self`, so the
state component of the result is the input state. -/
def get_summary (s : PersonalFinanceLedger) : Summary × PersonalFinanceLedger :=
  let totals := s.transactions.foldl sumStep (0, 0)
  let net_balance := totals.1 - totals.2
  ({ total_income := round2 totals.1
     total_expense := round2 totals.2
     net_balance := round2 net_balance }, s)

/-- `PersonalFinanceLedger.get_transactions`: returns `self.transactions`. -/
def get_transactions (s : PersonalFinanceLedger) :
    List Transaction × PersonalFinanceLedger :=
  (s.transactions, s)

/-- Ledger states reachable from a ledger constructed empty
(`PersonalFinanceLedger()`, i.e. no `initial_transactions`) by any sequence
of `add_transaction` calls (successful or failing: a failing call returns the
state unchanged). -/
inductive Reachable : PersonalFinanceLedger → Prop where
  | init : Reachable (mk_ledger none)
  | step (s : PersonalFinanceLedger) (k : TransactionType) (a : ℚ)
      (d c : String) : Reachable s → Reachable (add_transaction s k a d c).2

/-- Ledger states reachable from any constructor call, including
`PersonalFinanceLedger(initial_transactions)` with arbitrary dictionaries,
by any sequence of `add_transaction` calls. -/
inductive ConstructorReachable : PersonalFinanceLedger → Prop where
  | init (initial_transactions : Option (List Transaction)) :
      ConstructorReachable (mk_ledger initial_transactions)
  | step (s : PersonalFinanceLedger) (k : TransactionType) (a : ℚ)
      (d c : String) : ConstructorReachable s →
      ConstructorReachable (add_transaction s k a d c).2

/-- The id list `[some 1, …, some n]` that a ledger built from the empty
constructor by `n` successful adds carries. -/
def seqIds (n : ℕ) : List (Option ℤ) :=
  (List.range n).map (fun i : ℕ => some ((i : ℤ) + 1))

theorem seqIds_succ (n : ℕ) :
    seqIds (n + 1) = seqIds n ++ [some ((n : ℤ) + 1)] := by
  simp [seqIds, List.range_succ]

theorem seqIds_getElem (n i : ℕ) (hi : i < n) :
    (seqIds n)[i]? = some (some ((i : ℤ) + 1)) := by
  simp [seqIds, List.getElem?_map, List.getElem?_range hi]

theorem mem_seqIds (n : ℕ) (x : Option ℤ) (hx : x ∈ seqIds n) :
    ∃ m : ℕ, m < n ∧ x = some ((m : ℤ) + 1) := by
  simp only [seqIds, List.mem_map, List.mem_range] at hx
  obtain ⟨m, hm, h⟩ := hx
  exact ⟨m, hm, h.symm⟩

/-- Invariant of ledgers constructed empty and mutated only through
`add_transaction`: the stored ids are exactly `1, …, n` in insertion order,
the counter is `n + 1`, and every stored transaction has a present positive
amount, an `"Income"`/`"Expense"` kind, a description and a category. -/
theorem reachable_invariant (s : PersonalFinanceLedger) (h : Reachable s) :
    s.transactions.map Transaction.id = seqIds s.transactions.length ∧
    s.transaction_id_counter = (s.transactions.length : ℤ) + 1 ∧
    ∀ tx ∈ s.transactions,
      (∃ a : ℚ, tx.amount = some a ∧ 0 < a) ∧
      (tx.type = some "Income" ∨ tx.type = some "Expense") ∧
      tx.description.isSome ∧ tx.category.isSome := by
  induction h with
  | init => simp [mk_ledger, seqIds]
  | step s k a d c hs ih =>
    obtain ⟨hids, hctr, hwf⟩ := ih
    by_cases ha : a ≤ 0
    · simpa [add_transaction, ha] using ⟨hids, hctr, hwf⟩
    · simp only [add_transaction, if_neg ha, get_next_id]
      refine ⟨?_, ?_, ?_⟩
      · simp only [List.map_append, List.length_append, List.map_cons,
          List.map_nil, List.length_cons, List.length_nil]
        rw [hids, seqIds_succ]
        simp [hctr]
      · simp [hctr]
      · intro tx htx
        rcases List.mem_append.mp htx with hmem | hmem
        · exact hwf tx hmem
        · rcases List.mem_singleton.mp hmem with rfl
          refine ⟨⟨a, rfl, lt_of_not_le ha⟩, ?_, rfl, rfl⟩
          cases k <;> simp [TransactionType.str]

/-- C1: for every amount ≤ 0, any kind, description and category,
`add_transaction` fails with the `ValueError` message
"Amount must be a positive number." and returns the state unchanged (same
transaction sequence, same id counter); for every amount > 0 the call
succeeds, whatever the other fields are. -/
theorem add_transaction_validates_only_amount (s : PersonalFinanceLedger)
    (k : TransactionType) (a : ℚ) (d c : String) :
    (a ≤ 0 →
      add_transaction s k a d c =
        (Except.error "Amount must be a positive number.", s)) ∧
    (0 < a → ∃ tx, (add_transaction s k a d c).1 = Except.ok tx) := by
  constructor
  · intro ha
    simp [add_transaction, ha]
  · intro ha
    simp only [add_transaction, if_neg (not_le.mpr ha)]
    exact ⟨_, rfl⟩

/-- Witness for C1 at concrete inputs: amount `-1` fails and leaves the empty
ledger unchanged; amount `5` succeeds. -/
theorem add_transaction_validates_only_amount_witness :
    (add_transaction (mk_ledger none) TransactionType.income (-1) "x" "y" =
      (Except.error "Amount must be a positive number.", mk_ledger none)) ∧
    (∃ tx,
      (add_transaction (mk_ledger none) TransactionType.income 5 "x" "y").1 =
        Except.ok tx) :=
  ⟨(add_transaction_validates_only_amount (mk_ledger none)
      TransactionType.income (-1) "x" "y").1 (by norm_num),
   (add_transaction_validates_only_amount (mk_ledger none)
      TransactionType.income 5 "x" "y").2 (by norm_num)⟩

/-- C2: in a ledger created empty, the stored ids are exactly `1, …, n` in
insertion order (so the i-th successful add was assigned id i), the next
successful `add_transaction` is assigned id `n + 1`, and the stored ids are
strictly increasing in insertion order (hence unique). -/
theorem ids_sequential (s : PersonalFinanceLedger) (h : Reachable s) :
    s.transactions.map Transaction.id = seqIds s.transactions.length ∧
    (∀ (k : TransactionType) (a : ℚ) (d c : String) (tx : Transaction)
        (s' : PersonalFinanceLedger),
        add_transaction s k a d c = (Except.ok tx, s') →
        tx.id = some ((s.transactions.length : ℤ) + 1)) ∧
    s.transactions.Pairwise
      (fun t u => ∀ i j, t.id = some i → u.id = some j → i < j) := by
  obtain ⟨hids, hctr, -⟩ := reachable_invariant s h
  have key : ∀ (i : ℕ) (hi : i < s.transactions.length),
      (s.transactions[i]).id = some ((i : ℤ) + 1) := by
    intro i hi
    have h1 := congrArg (fun l => l[i]?) hids
    simp only [List.getElem?_map, List.getElem?_eq_getElem hi,
      Option.map_some', seqIds_getElem _ _ hi] at h1
    exact Option.some_injective _ h1
  refine ⟨hids, ?_, ?_⟩
  · intro k a d c tx s' hadd
    by_cases ha : a ≤ 0
    · simp [add_transaction, ha] at hadd
    · simp only [add_transaction, if_neg ha, get_next_id, Prod.mk.injEq,
        Except.ok.injEq] at hadd
      rw [← hadd.1, hctr]
  · rw [List.pairwise_iff_getElem]
    intro i j hi hj hij
    intro x y hx hy
    rw [key i hi] at hx
    rw [key j hj] at hy
    obtain rfl : ((i : ℤ) + 1) = x := Option.some_injective _ hx
    obtain rfl : ((j : ℤ) + 1) = y := Option.some_injective _ hy
    omega

/-- Witness for C2 at the reachable ledger obtained by one successful add on
the empty ledger: its id list is exactly `[1]`. -/
theorem ids_sequential_witness :
    (add_transaction (mk_ledger none) TransactionType.income 5 "x"
        "y").2.transactions.map Transaction.id =
      seqIds (add_transaction (mk_ledger none) TransactionType.income 5
        "x" "y").2.transactions.length :=
  (ids_sequential _
    (Reachable.step _ TransactionType.income 5 "x" "y" Reachable.init)).1

/-- A malformed transaction dictionary (negative amount) that
`PersonalFinanceLedger.__init__` accepts through `initial_transactions`. -/
def bad_tx : Transaction :=
  { id := some 1
    type := some "Expense"
    amount := some (-5)
    description := some "Bad"
    category := some "Test" }

/-- Counterexample to C4 as stated: the constructor's `initial_transactions`
parameter is a construction path that bypasses the amount validation, so a
reachable ledger (reachable through `__init__`) stores a transaction with
amount `-5 ≤ 0`. -/
theorem constructor_bypasses_validation :
    ConstructorReachable (mk_ledger (some [bad_tx])) ∧
    bad_tx ∈ (mk_ledger (some [bad_tx])).transactions ∧
    bad_tx.amount = some (-5) ∧ ¬(0 < (-5 : ℚ)) :=
  ⟨ConstructorReachable.init (some [bad_tx]), by simp [mk_ledger, bad_tx],
   rfl, by norm_num⟩

/-- C4 amended: every stored transaction of every ledger constructed empty
(no `initial_transactions`) and mutated only through `add_transaction` has a
present amount that is strictly positive; the `initial_transactions`
parameter of the constructor is the one construction path that bypasses this
validation. -/
theorem amount_positive_of_reachable (s : PersonalFinanceLedger)
    (h : Reachable s) :
    ∀ tx ∈ s.transactions, ∃ a : ℚ, tx.amount = some a ∧ 0 < a :=
  fun tx htx => ((reachable_invariant s h).2.2 tx htx).1

/-- Witness for the amended C4: the single stored transaction of the ledger
obtained by one successful add on the empty ledger has a present positive
amount. -/
theorem amount_positive_of_reachable_witness :
    ∃ a : ℚ, (Transaction.mk (some 1) (some TransactionType.expense.str)
      (some 3) (some "d") (some "c")).amount = some a ∧ 0 < a :=
  amount_positive_of_reachable _
    (Reachable.step _ TransactionType.expense 3 "d" "c" Reachable.init)
    (Transaction.mk (some 1) (some TransactionType.expense.str) (some 3)
      (some "d") (some "c"))
    (by norm_num [add_transaction, mk_ledger, get_next_id])

/-- C6: on a reachable ledger, a valid add (amount > 0) appends exactly one
transaction at the end of the sequence, carrying the given kind, amount,
description and category together with the freshly assigned id (the counter
value), returns that transaction, leaves every prior transaction in place,
increments only the counter, and `get_transactions` then shows the new
transaction as the last element with an id strictly greater than the id of
every earlier element. -/
theorem add_appends_at_end (s : PersonalFinanceLedger) (hs : Reachable s)
    (k : TransactionType) (a : ℚ) (d c : String) (ha : 0 < a) :
    ∃ tx,
      add_transaction s k a d c =
        (Except.ok tx,
          { transactions := s.transactions ++ [tx]
            transaction_id_counter := s.transaction_id_counter + 1 }) ∧
      tx = { id := some s.transaction_id_counter
             type := some k.str
             amount := some a
             description := some d
             category := some c } ∧
      (get_transactions (add_transaction s k a d c).2).1.getLast? = some tx ∧
      ∀ t ∈ s.transactions, ∀ i j, t.id = some i → tx.id = some j → i < j := by
  obtain ⟨hids, hctr, -⟩ := reachable_invariant s hs
  have hnle : ¬ a ≤ 0 := not_le.mpr ha
  refine ⟨_, ?_, rfl, ?_, ?_⟩
  · simp [add_transaction, hnle, get_next_id]
  · simp [add_transaction, hnle, get_next_id, get_transactions]
  · intro t ht i j hi hj
    have hmem : t.id ∈ seqIds s.transactions.length := by
      rw [← hids]
      exact List.mem_map_of_mem Transaction.id ht
    obtain ⟨m, hm, hx⟩ := mem_seqIds _ _ hmem
    rw [hi] at hx
    obtain rfl : i = (m : ℤ) + 1 := Option.some_injective _ hx
    have hj' : s.transaction_id_counter = j := Option.some_injective _ hj
    rw [hctr] at hj'
    omega

/-- Witness for C6: one valid add on the empty ledger. -/
theorem add_appends_at_end_witness :
    ∃ tx,
      add_transaction (mk_ledger none) TransactionType.income 7 "d" "c" =
        (Except.ok tx,
          { transactions := (mk_ledger none).transactions ++ [tx]
            transaction_id_counter :=
              (mk_ledger none).transaction_id_counter + 1 }) ∧
      tx = { id := some (mk_ledger none).transaction_id_counter
             type := some TransactionType.income.str
             amount := some 7
             description := some "d"
             category := some "c" } ∧
      (get_transactions (add_transaction (mk_ledger none)
        TransactionType.income 7 "d" "c").2).1.getLast? = some tx ∧
      ∀ t ∈ (mk_ledger none).transactions, ∀ i j,
        t.id = some i → tx.id = some j → i < j :=
  add_appends_at_end (mk_ledger none) Reachable.init TransactionType.income 7
    "d" "c" (by norm_num)

/-- C10: constructing a ledger with a non-empty `initial_transactions` list
still initializes the id counter to 1, so the first subsequent successful add
is assigned id 1 regardless of the ids already present; in particular adding
to a ledger seeded with `bad_tx` (which carries id 1) produces two stored
transactions with id 1. -/
theorem initial_transactions_counter_one (init : List Transaction)
    (k : TransactionType) (a : ℚ) (d c : String) (ha : 0 < a) :
    (mk_ledger (some init)).transaction_id_counter = 1 ∧
    (∃ tx, (add_transaction (mk_ledger (some init)) k a d c).1 =
        Except.ok tx ∧ tx.id = some 1) ∧
    (add_transaction (mk_ledger (some [bad_tx])) TransactionType.income 5 "s"
        "t").2.transactions.map Transaction.id = [some 1, some 1] := by
  have hnle : ¬ a ≤ 0 := not_le.mpr ha
  refine ⟨rfl, ⟨Transaction.mk (some 1) (some k.str) (some a) (some d)
      (some c), ?_, rfl⟩, ?_⟩
  · simp [add_transaction, hnle, get_next_id, mk_ledger]
  · norm_num [add_transaction, get_next_id, mk_ledger, bad_tx]

/-- Witness for C10 with a concrete seed list and amount. -/
theorem initial_transactions_counter_one_witness :
    (mk_ledger (some [bad_tx])).transaction_id_counter = 1 ∧
    (∃ tx, (add_transaction (mk_ledger (some [bad_tx]))
        TransactionType.expense 2 "d" "c").1 = Except.ok tx ∧
        tx.id = some 1) ∧
    (add_transaction (mk_ledger (some [bad_tx])) TransactionType.income 5 "s"
        "t").2.transactions.map Transaction.id = [some 1, some 1] :=
  initial_transactions_counter_one [bad_tx] TransactionType.expense 2 "d" "c"
    (by norm_num)

/-- C7: on a ledger containing no transactions, `get_summary` returns
`total_income = 0`, `total_expense = 0` and `net_balance = 0`. -/
theorem get_summary_empty (s : PersonalFinanceLedger)
    (h : s.transactions = []) :
    (get_summary s).1 =
      { total_income := 0, total_expense := 0, net_balance := 0 } := by
  simp [get_summary, h, round2, roundHalfEven]

/-- Witness for C7 at the ledger constructed empty. -/
theorem get_summary_empty_witness :
    (get_summary (mk_ledger none)).1 =
      { total_income := 0, total_expense := 0, net_balance := 0 } :=
  get_summary_empty (mk_ledger none) rfl

/-- The specification's total for kind `k`: the sum of `amount` over all
stored transactions whose kind field equals `k` (contributing `0` for an
absent amount, which the hypotheses of the theorems below exclude). -/
def kind_total (k : String) (l : List Transaction) : ℚ :=
  (l.map fun t => if t.type = some k then t.amount.getD 0 else 0).sum

/-- The summary loop computes the two per-kind totals, provided every stored
transaction has its kind field present. -/
theorem foldl_sumStep (l : List Transaction) (acc : ℚ × ℚ)
    (h : ∀ t ∈ l, t.type.isSome) :
    l.foldl sumStep acc =
      (acc.1 + kind_total "Income" l, acc.2 + kind_total "Expense" l) := by
  induction l generalizing acc with
  | nil => simp [kind_total]
  | cons t ts ih =>
    obtain ⟨k, hk⟩ :=
      Option.isSome_iff_exists.mp (h t (List.mem_cons_self t ts))
    have hts : ∀ u ∈ ts, u.type.isSome :=
      fun u hu => h u (List.mem_cons_of_mem t hu)
    rw [List.foldl_cons, ih _ hts]
    by_cases hkI : k = "Income"
    · subst hkI
      simp [sumStep, kind_total, hk, add_assoc]
    · by_cases hkE : k = "Expense"
      · subst hkE
        simp [sumStep, kind_total, hk, add_assoc]
      · simp [sumStep, kind_total, hk, hkI, hkE]

/-- C3: `get_summary` returns `total_income` equal to the sum of `amount`
over the stored transactions of kind Income, `total_expense` equal to the
sum over those of kind Expense, and `net_balance` equal to the difference of
those two sums, each rounded to 2 decimal places with round half to even
(the convention of the implementation's rounding primitive); the hypothesis
restricts to transactions whose kind and amount fields are present, which
holds for every transaction the ledger itself creates. -/
theorem get_summary_totals (s : PersonalFinanceLedger)
    (h : ∀ t ∈ s.transactions, t.type.isSome ∧ t.amount.isSome) :
    (get_summary s).1.total_income =
      round2 (kind_total "Income" s.transactions) ∧
    (get_summary s).1.total_expense =
      round2 (kind_total "Expense" s.transactions) ∧
    (get_summary s).1.net_balance =
      round2 (kind_total "Income" s.transactions -
        kind_total "Expense" s.transactions) := by
  have h1 : ∀ t ∈ s.transactions, t.type.isSome := fun t ht => (h t ht).1
  have hfold := foldl_sumStep s.transactions (0, 0) h1
  simp only [get_summary, hfold, zero_add]
  exact ⟨trivial, trivial, trivial⟩

/-- The scenario ledger of the specification: `add(Expense, 25, "Groceries",
"Food")` then `add(Income, 100, "Bonus", "Salary")` on an empty ledger. -/
def s_demo : PersonalFinanceLedger :=
  (add_transaction (add_transaction (mk_ledger none) TransactionType.expense
    25 "Groceries" "Food").2 TransactionType.income 100 "Bonus" "Salary").2

/-- Witness for C3 at the scenario ledger. -/
theorem get_summary_totals_witness :
    (get_summary s_demo).1.total_income =
      round2 (kind_total "Income" s_demo.transactions) ∧
    (get_summary s_demo).1.total_expense =
      round2 (kind_total "Expense" s_demo.transactions) ∧
    (get_summary s_demo).1.net_balance =
      round2 (kind_total "Income" s_demo.transactions -
        kind_total "Expense" s_demo.transactions) :=
  get_summary_totals s_demo (by
    norm_num [s_demo, add_transaction, mk_ledger, get_next_id])

theorem str_expense_ne_income : ("Expense" : String) ≠ "Income" := by decide

theorem str_income_ne_expense : ("Income" : String) ≠ "Expense" := by decide

theorem roundHalfEven_intCast (m : ℤ) : roundHalfEven (m : ℚ) = m := by
  norm_num [roundHalfEven, Int.floor_intCast, round_intCast]

theorem round2_int_div_100 (m : ℤ) :
    round2 ((m : ℚ) / 100) = (m : ℚ) / 100 := by
  have h : ((m : ℚ) / 100) * 100 = (m : ℚ) := by field_simp
  rw [round2, h, roundHalfEven_intCast]

/-- The ledger obtained by adding income `0.004` and expense `0.008` to an
empty ledger. -/
def s_tiny : PersonalFinanceLedger :=
  (add_transaction (add_transaction (mk_ledger none) TransactionType.income
    (4/1000) "small income" "t").2 TransactionType.expense (8/1000)
    "small expense" "t").2

/-- Counterexample to C5 as stated: after adding income `0.004` and expense
`0.008`, `get_summary` returns `total_income = 0.00`,
`total_expense = 0.01` and `net_balance = 0.00`, and
`0.00 ≠ 0.00 - 0.01`: the equation fails on the returned, rounded values
because the code rounds `net_balance` from the unrounded sums. -/
theorem net_balance_rounding_counterexample :
    (get_summary s_tiny).1.total_income = 0 ∧
    (get_summary s_tiny).1.total_expense = 1 / 100 ∧
    (get_summary s_tiny).1.net_balance = 0 ∧
    (get_summary s_tiny).1.net_balance ≠
      (get_summary s_tiny).1.total_income -
        (get_summary s_tiny).1.total_expense := by
  have hfold : s_tiny.transactions.foldl sumStep (0, 0) = (1/250, 1/125) := by
    norm_num [s_tiny, add_transaction, mk_ledger, get_next_id, sumStep,
      TransactionType.str, str_expense_ne_income, str_income_ne_expense]
  have hI : round2 (1/250) = 0 := by
    norm_num [round2, roundHalfEven, round_eq]
  have hE : round2 (1/125) = 1/100 := by
    norm_num [round2, roundHalfEven, round_eq]
  have hN : round2 (-(1/250)) = 0 := by
    norm_num [round2, roundHalfEven, round_eq]
  refine ⟨?_, ?_, ?_, ?_⟩ <;>
    simp only [get_summary, hfold] <;>
    norm_num [hI, hE, hN]

/-- C5 amended: the returned `net_balance` is the 2-decimal rounding of the
difference of the unrounded sums, so the equation
`net_balance = total_income - total_expense` holds on the returned values
whenever each unrounded per-kind total is an exact multiple of `0.01` (in
particular whenever every stored amount is); it can fail by one rounding
step otherwise. -/
theorem net_balance_equation (s : PersonalFinanceLedger)
    (hI : ∃ m : ℤ, (s.transactions.foldl sumStep (0, 0)).1 = (m : ℚ) / 100)
    (hE : ∃ n : ℤ, (s.transactions.foldl sumStep (0, 0)).2 = (n : ℚ) / 100) :
    (get_summary s).1.net_balance =
      (get_summary s).1.total_income - (get_summary s).1.total_expense := by
  obtain ⟨m, hm⟩ := hI
  obtain ⟨n, hn⟩ := hE
  simp only [get_summary, hm, hn]
  have h1 : (m : ℚ) / 100 - (n : ℚ) / 100 = ((m - n : ℤ) : ℚ) / 100 := by
    push_cast
    ring
  rw [h1, round2_int_div_100, round2_int_div_100, round2_int_div_100, h1]

/-- Witness for the amended C5 at the scenario ledger (totals `100` income
and `25` expense, both exact multiples of `0.01`). -/
theorem net_balance_equation_witness :
    (get_summary s_demo).1.net_balance =
      (get_summary s_demo).1.total_income -
        (get_summary s_demo).1.total_expense :=
  net_balance_equation s_demo
    ⟨10000, by norm_num [s_demo, add_transaction, mk_ledger, get_next_id,
      sumStep, TransactionType.str, str_expense_ne_income,
      str_income_ne_expense]⟩
    ⟨2500, by norm_num [s_demo, add_transaction, mk_ledger, get_next_id,
      sumStep, TransactionType.str, str_expense_ne_income,
      str_income_ne_expense]⟩

/-- C9: in `get_summary`, a stored transaction whose kind is neither
`"Income"` nor `"Expense"` contributes to neither total (it is silently
skipped); a transaction with a missing kind field is counted as Expense and
a missing amount is counted as `0.0`; and no such record exists in a ledger
constructed empty (without `initial_transactions`): there every stored
transaction has kind `"Income"` or `"Expense"` and a present amount. -/
theorem summary_malformed_defaults (s : PersonalFinanceLedger)
    (l : List Transaction) (c0 : ℤ) (tx : Transaction) (k : String)
    (h : Reachable s) :
    (tx.type = some k → k ≠ "Income" → k ≠ "Expense" →
      (get_summary ⟨l ++ [tx], c0⟩).1 = (get_summary ⟨l, c0⟩).1) ∧
    (tx.type = none →
      (get_summary ⟨l ++ [tx], c0⟩).1 =
        (get_summary ⟨l ++ [{ tx with type := some "Expense" }], c0⟩).1) ∧
    (tx.amount = none →
      (get_summary ⟨l ++ [tx], c0⟩).1 =
        (get_summary ⟨l ++ [{ tx with amount := some 0 }], c0⟩).1) ∧
    (∀ t ∈ s.transactions,
      (t.type = some "Income" ∨ t.type = some "Expense") ∧
      t.amount.isSome) := by
  refine ⟨?_, ?_, ?_, ?_⟩
  · intro htype hk1 hk2
    simp [get_summary, List.foldl_append, sumStep, htype, hk1, hk2]
  · intro htype
    simp [get_summary, List.foldl_append, sumStep, htype]
  · intro hamt
    simp [get_summary, List.foldl_append, sumStep, hamt]
  · intro t ht
    obtain ⟨⟨a, ha, -⟩, hkind, -, -⟩ := (reachable_invariant s h).2.2 t ht
    exact ⟨hkind, by simp [ha]⟩

/-- Witness for C9: a transaction of kind `"Transfer"` leaves the summary of
the surrounding ledger unchanged. -/
theorem summary_malformed_defaults_witness :
    (get_summary ⟨[] ++
      [Transaction.mk none (some "Transfer") (some 7) none none], 1⟩).1 =
      (get_summary ⟨[], 1⟩).1 :=
  (summary_malformed_defaults (mk_ledger none) [] 1
    (Transaction.mk none (some "Transfer") (some 7) none none) "Transfer"
    Reachable.init).1 rfl (by decide) (by decide)

/-- C8: `get_summary` has no side effects: it returns the state unchanged
(same transaction sequence and id counter), and a second call on the returned
state yields the identical summary. -/
theorem get_summary_pure (s : PersonalFinanceLedger) :
    (get_summary s).2 = s ∧
    (get_summary ((get_summary s).2)).1 = (get_summary s).1 := by
  exact ⟨rfl, rfl⟩
